import Mathlib

/-!
Verification of the GraphQL execution core of GitMetrics-TeamBuilder.

The development shallowly embeds `app/github_query/github_graphql/client.py`
(class `Client`: `_retry_request`, `_have_limit`, `_execute`,
`_execution_generator`, `execute`, plus `QueryFailedException` and
`InvalidAuthenticationError`) and
`app/github_query/queries/costs/query_cost.py` (class `QueryCost`).

Network effects are made explicit: an environment `env : Nat → Attempt`
gives the outcome of the i-th HTTP POST issued by the client (a timeout or
a `Response`), and a `Trace` records how many POSTs were issued, the query
text of each, and every throttling sleep.  Wall-clock time is an `Int`
(seconds); the sub-second component of `datetime.now` is immaterial to all
properties proved here.

The repository's `github_graphql/query.py` (classes `QueryNode`, `Query`,
`PaginatedQuery`, `QueryNodePaginator`) and `authentication.py` are not in
the source tree; the field-node tree, its rendering, the pagination cursor
and the authenticator capability are modelled from the specification
(sections 3, 4.1, 4.2, 6) and are marked `Modelled from the spec:` below.
-/

/-! ## JSON values (decoded response payloads) -/

/-- Decoded JSON value, as produced by `response.json()`.  Numbers are
integers: every numeric field the client reads (`cost`, `remaining`,
status-independent payload data) is integral in the GitHub API. -/
inductive JVal where
  | null
  | bool (b : Bool)
  | num (n : Int)
  | str (s : String)
  | arr (xs : List JVal)
  | obj (kvs : List (String × JVal))

/-- Association-list lookup on JSON object members (Python `dict` access;
keys are unique in decoded JSON, so first match is the match). -/
def jLookup : List (String × JVal) → String → Option JVal
  | [], _ => none
  | (k, v) :: rest, key => if k = key then some v else jLookup rest key

/-- Python `d[key]` / `key in d` on a decoded payload: `some` iff the value
is an object with the member.  (On a non-object Python raises `TypeError`
rather than `KeyError`; both are unhandled errors and no property proved
here distinguishes them.) -/
def JVal.getKey : JVal → String → Option JVal
  | .obj kvs, key => jLookup kvs key
  | _, _ => none

/-- Python `"errors" in json_response` for object payloads. -/
def jHasKey (j : JVal) (key : String) : Bool :=
  (j.getKey key).isSome

/-! ## HTTP responses and the network environment -/

/-- One HTTP response, as seen through the `requests` API surface the
client uses: `status_code`, the decoded JSON body (`none` when
`response.json()` raises), the raw body text, and the request path used in
`QueryFailedException` messages. -/
structure Response where
  status : Nat
  jsonBody : Option JVal
  text : String
  pathUrl : String

/-- Outcome of a single `requests.post` call: a caught `Timeout`, or a
response. -/
inductive Attempt where
  | timeout
  | resp (r : Response)

/-- Errors raised by the embedded client code.  `invalidAuthentication`,
`timeoutExhausted` (`requests.exceptions.Timeout`) and `queryFailed`
(`QueryFailedException`) correspond to exceptions the source raises
deliberately; `jsonDecodeError`, `keyError`, `typeError`, `valueError` and
`attributeError` are the Python runtime errors that escape from the
corresponding operations. -/
inductive ClientError where
  | invalidAuthentication (msg : String)
  | timeoutExhausted
  | queryFailed (resp : Option Response) (query : Option String)
  | jsonDecodeError
  | keyError (key : String)
  | typeError (msg : String)
  | valueError (msg : String)
  | attributeError (msg : String)

/-- Observable effect log of a run: `k` counts HTTP POSTs issued so far,
`reqs` lists the query text of each POST in order, `sleeps` lists the
durations (seconds) of every `time.sleep` performed by throttling. -/
structure Trace where
  k : Nat
  reqs : List String
  sleeps : List Int

/-- The empty trace: no request issued, no sleep performed. -/
def Trace.init : Trace := ⟨0, [], []⟩

/-! ## Client construction -/

/-- Modelled from the spec: the authenticator capability (section 6)
"exposes one operation returning a mapping of HTTP header name → value";
`authentication.py` is not in the source tree. -/
structure Authenticator where
  headers : List (String × String)

/-- Configuration stored by a successfully constructed `Client`
(`Client.__init__`). -/
structure Client where
  protocol : String
  host : String
  isEnterprise : Bool
  retryAttempts : Nat
  timeoutSeconds : Nat
  authenticator : Authenticator

/-- `Client.__init__`: stores the configuration, but raises
`InvalidAuthenticationError` when no authenticator is given
(`if authenticator is None`). -/
def clientInit (protocol host : String) (isEnterprise : Bool)
    (authenticator : Option Authenticator)
    (retryAttempts timeoutSeconds : Nat) : Except ClientError Client :=
  match authenticator with
  | none => .error (.invalidAuthentication "Authentication needs to be specified")
  | some a =>
      .ok ⟨protocol, host, isEnterprise, retryAttempts, timeoutSeconds, a⟩

/-- `QueryFailedException.__init__`: the message carries the status code,
then the query text if one was supplied (Python truthiness: `None` and the
empty string both select the path branch), and always ends with the raw
response body. -/
def queryFailedMessage (resp : Response) (query : Option String) : String :=
  if query.getD "" ≠ "" then
    "Query failed with code " ++ toString resp.status ++ ". Query: " ++
      query.getD "" ++ ". Response: " ++ resp.text
  else
    "Query failed with code " ++ toString resp.status ++ ". Path: " ++
      resp.pathUrl ++ ". Response: " ++ resp.text

/-! ## Field nodes and rendering (query.py is not in the source tree) -/

/-- Modelled from the spec: an argument value of a field node (section 3;
"values may be scalars, strings requiring quoting, or nested mappings" —
the nested-mapping case is not exercised by any property below and is
omitted). -/
inductive ArgVal where
  | str (s : String)
  | num (n : Int)
  | bool (b : Bool)

mutual
/-- Modelled from the spec: a field node (section 3): a raw string leaf or
a named node with ordered arguments and ordered children. -/
inductive FieldT where
  | str (s : String)
  | node (name : String) (args : List (String × ArgVal)) (fields : FieldSeq)

/-- Modelled from the spec: the ordered child sequence of a field node
(section 3), kept as a separate inductive so that rendering is
structurally recursive. -/
inductive FieldSeq where
  | nil
  | cons (f : FieldT) (fs : FieldSeq)
end

/-- Whether a string's first character is the variable marker `$`. -/
def startsWithDollar (s : String) : Bool :=
  match s.data with
  | [] => false
  | c :: _ => c = '$'

/-- Modelled from the spec: argument-value rendering (section 4.1): "string
values are quoted unless they begin with `$` ... numeric/boolean argument
values are never quoted". -/
def renderArgVal : ArgVal → String
  | .str s => if startsWithDollar s then s else "\"" ++ s ++ "\""
  | .num n => toString n
  | .bool b => if b then "true" else "false"

/-- Modelled from the spec: argument-list rendering (section 4.1):
`name(arg1: val1, arg2: val2, …)`, arguments in insertion order; an empty
argument list renders nothing. -/
def renderArgs : List (String × ArgVal) → String
  | [] => ""
  | kvs => "(" ++ String.intercalate ", "
      (kvs.map fun kv => kv.1 ++ ": " ++ renderArgVal kv.2) ++ ")"

mutual
/-- Modelled from the spec: field rendering (section 4.1): a leaf renders
as its bare name, a field with children as `name(args…) { child1 child2 … }`,
recursively. -/
def renderField : FieldT → String
  | .str s => s
  | .node n args .nil => n ++ renderArgs args
  | .node n args (.cons f fs) =>
      n ++ renderArgs args ++ " \x7b " ++ renderFieldSeq (.cons f fs) ++ " \x7d"
termination_by structural f => f

/-- Modelled from the spec: rendering of a child sequence (section 4.1):
children appear in the order they were attached, space-separated. -/
def renderFieldSeq : FieldSeq → String
  | .nil => ""
  | .cons f .nil => renderField f
  | .cons f (.cons g fs) => renderField f ++ " " ++ renderFieldSeq (.cons g fs)
termination_by structural fs => fs
end

/-- Modelled from the spec: document rendering (section 4.1): "a Query
Document renders as `query \x7b field1 field2 … \x7d`" (`Query.get_query`). -/
def renderQuery (fields : FieldSeq) : String :=
  "query \x7b " ++ renderFieldSeq fields ++ " \x7d"

/-! ## QueryCost (`queries/costs/query_cost.py`) -/

/-- The field list `QueryCost.__init__` passes to the `Query` constructor
for a non-empty body: the body itself followed by the
`rateLimit(dryrun: <flag>)` probe node requesting `cost`, `remaining`,
`resetAt` (constants `NODE_RATE_LIMIT`, `ARG_DRYRUN`, `FIELD_COST`,
`FIELD_REMAINING`, `FIELD_RESET_AT`). -/
def probeFields (body : String) (dryrun : Bool) : FieldSeq :=
  .cons (.str body)
    (.cons (.node "rateLimit" [("dryrun", .bool dryrun)]
      (.cons (.str "cost") (.cons (.str "remaining") (.cons (.str "resetAt") .nil))))
      .nil)

/-- `QueryCost.__init__`: raises `ValueError` for an empty body
(`if not query`), otherwise builds `probeFields`. -/
def queryCostFields (body : String) (dryrun : Bool) :
    Except ClientError FieldSeq :=
  if body = "" then .error (.valueError "Test query must not be empty")
  else .ok (probeFields body dryrun)

/-! ## The cost-extraction regex in `Client._have_limit` -/

/-- Python `\s` on the ASCII range (`re.search` in `_have_limit` only ever
meets ASCII query text): space, tab, newline, carriage return, vertical
tab, form feed. -/
def isPySpace (c : Char) : Bool :=
  c = ' ' || c = '\t' || c = '\n' || c = '\r' || c = '\x0b' || c = '\x0c'

/-- The `(?P<content>.+)\x7d` tail of the pattern, applied to the characters
following the opening brace: `.` does not match a newline, `.+` is greedy
and backtracks to the last `\x7d` of the newline-free segment, and the content
must be non-empty. -/
def braceContent (cs : List Char) : Option (List Char) :=
  let seg := cs.takeWhile (fun c => c ≠ '\n')
  let trimmed := (seg.reverse.dropWhile (fun c => c ≠ '\x7d')).reverse
  if 2 ≤ trimmed.length then some trimmed.dropLast else none

/-- One anchored attempt of `query\s*\x7b(?P<content>.+)\x7d` at the start of the
given character list. -/
def matchQueryBraceAt (cs : List Char) : Option (List Char) :=
  match cs with
  | 'q' :: 'u' :: 'e' :: 'r' :: 'y' :: rest =>
      match rest.dropWhile isPySpace with
      | '\x7b' :: body => braceContent body
      | _ => none
  | _ => none

/-- `re.search` semantics: try the anchored match at every start position,
left to right, first success wins. -/
def reSearchGo : List Char → Option (List Char)
  | [] => none
  | c :: cs =>
      match matchQueryBraceAt (c :: cs) with
      | some content => some content
      | none => reSearchGo cs

/-- `re.search(r"query\s*\x7b(?P<content>.+)\x7d", query)` followed by
`match.group("content")`: `some` is a successful match with the captured
content, `none` is Python's `None`. -/
def reSearchQueryBrace (s : String) : Option String :=
  (reSearchGo s.data).map fun cs => String.mk cs

/-! ## `Client._retry_request` -/

/-- The body of `_retry_request`'s `for _ in range(retry_attempts)` loop.
`fuel` is the number of loop iterations left, `lastResp` the latest value
of the local `response`, `sawTimeout` whether `last_exception` is set.
Each iteration issues one POST (recorded in the trace) whose outcome is
`env tr.k`; a 200 response returns immediately; a `Timeout` is caught and
sets `last_exception`; a non-200 response is remembered and the loop
continues.  When the loop ends, a pending `last_exception` turns into the
`Timeout("All retry attempts exhausted.")` raise, otherwise
`QueryFailedException` is raised with the last response. -/
def retryRequestGo (q : String) (env : Nat → Attempt) :
    Nat → Trace → Option Response → Bool → Except ClientError Response × Trace
  | 0, tr, lastResp, sawTimeout =>
      (if sawTimeout then .error .timeoutExhausted
       else .error (.queryFailed lastResp (some q)), tr)
  | fuel + 1, tr, lastResp, sawTimeout =>
      match env tr.k with
      | .timeout =>
          retryRequestGo q env fuel ⟨tr.k + 1, tr.reqs ++ [q], tr.sleeps⟩
            lastResp true
      | .resp r =>
          if r.status = 200 then
            (.ok r, ⟨tr.k + 1, tr.reqs ++ [q], tr.sleeps⟩)
          else
            retryRequestGo q env fuel ⟨tr.k + 1, tr.reqs ++ [q], tr.sleeps⟩
              (some r) sawTimeout

/-- `Client._retry_request`: at most `retry_attempts` POSTs of the query
`q`. -/
def retryRequest (c : Client) (q : String) (env : Nat → Attempt)
    (tr : Trace) : Except ClientError Response × Trace :=
  retryRequestGo q env c.retryAttempts tr none false

/-- An attempt outcome that does not short-circuit the retry loop: a
caught timeout or a non-200 response. -/
def attemptFailed : Attempt → Bool
  | .timeout => true
  | .resp r => decide (r.status ≠ 200)

/-! ## `Client._have_limit` -/

/-- The three reads
`rate_limit["cost"], rate_limit["remaining"], rate_limit["resetAt"]` after
`rate_limit = rate_limit.json()["data"]["rateLimit"]`: a missing member is
a `KeyError`; `cost` and `remaining` must be numbers for the later
`retry_attempts * cost > remaining` comparison (otherwise a `TypeError`),
while `resetAt` is kept raw. -/
def probeSnapshot (j : JVal) : Except ClientError (Int × Int × JVal) :=
  match j.getKey "data" with
  | none => .error (.keyError "data")
  | some d =>
      match d.getKey "rateLimit" with
      | none => .error (.keyError "rateLimit")
      | some rl =>
          match rl.getKey "cost" with
          | none => .error (.keyError "cost")
          | some cv =>
              match rl.getKey "remaining" with
              | none => .error (.keyError "remaining")
              | some rv =>
                  match rl.getKey "resetAt" with
                  | none => .error (.keyError "resetAt")
                  | some reset =>
                      match cv with
                      | .num cost =>
                          match rv with
                          | .num remaining => .ok (cost, remaining, reset)
                          | _ => .error (.typeError "remaining is not a number")
                      | _ => .error (.typeError "cost is not a number")

/-- `Client._have_limit`: extract the body of the upcoming query with the
regex (a failed match makes `match.group("content")` raise
`AttributeError` before any request is issued), wrap it in a
`QueryCost(..., dryrun=True)` probe document, send the probe through
`_retry_request`, decode it, and report
`(retry_attempts * cost > remaining, resetAt)`. -/
def haveLimit (c : Client) (q : String) (env : Nat → Attempt) (tr : Trace) :
    Except ClientError (Bool × JVal) × Trace :=
  match reSearchQueryBrace q with
  | none => (.error (.attributeError "NoneType object has no attribute group"), tr)
  | some content =>
      match queryCostFields content true with
      | .error e => (.error e, tr)
      | .ok fs =>
          match retryRequest c (renderQuery fs) env tr with
          | (.error e, tr') => (.error e, tr')
          | (.ok r, tr') =>
              match r.jsonBody with
              | none => (.error .jsonDecodeError, tr')
              | some j =>
                  match probeSnapshot j with
                  | .error e => (.error e, tr')
                  | .ok (cost, remaining, reset) =>
                      (.ok (decide ((c.retryAttempts : Int) * cost > remaining),
                        reset), tr')

/-! ## Parsing `resetAt` (`datetime.strptime(..., "%Y-%m-%dT%H:%M:%SZ")`) -/

/-- Decimal digit value of a character, `none` for a non-digit. -/
def digitVal (c : Char) : Option Nat :=
  if c.isDigit then some (c.toNat - 48) else none

/-- Gregorian leap-year test. -/
def isLeapYear (y : Nat) : Bool :=
  y % 4 = 0 && (y % 100 ≠ 0 || y % 400 = 0)

/-- Length of a month, as validated by `datetime`. -/
def daysInMonth (y m : Nat) : Nat :=
  if m = 2 then (if isLeapYear y then 29 else 28)
  else if m = 4 || m = 6 || m = 9 || m = 11 then 30
  else 31

/-- Days from 1970-01-01 to year `y`, month `m`, day `d` (proleptic
Gregorian; the days-from-civil algorithm, using that `/` on `Int` with a
positive divisor is floor division). -/
def daysFromCivil (y : Int) (m d : Nat) : Int :=
  let ys : Int := if m ≤ 2 then y - 1 else y
  let era : Int := ys / 400
  let yoe : Int := ys - era * 400
  let mp : Int := ((m : Int) + 9) % 12
  let doy : Int := (153 * mp + 2) / 5 + (d : Int) - 1
  let doe : Int := yoe * 365 + yoe / 4 - yoe / 100 + doy
  era * 146097 + doe - 719468

/-- `datetime.strptime(s, "%Y-%m-%dT%H:%M:%SZ")` followed by
`.replace(tzinfo=timezone.utc)`, as seconds since the Unix epoch: `none`
is the `ValueError` strptime raises when the text does not match the
format or a field is out of range.  (Python also accepts one-digit month,
day, hour, minute and second; the fixed-width RFC 3339 form of section 6
is the only shape any property below exercises.) -/
def parseResetAt (s : String) : Option Int :=
  match s.data with
  | [y1, y2, y3, y4, '-', m1, m2, '-', d1, d2, 'T',
     h1, h2, ':', n1, n2, ':', s1, s2, 'Z'] =>
      match digitVal y1, digitVal y2, digitVal y3, digitVal y4,
            digitVal m1, digitVal m2, digitVal d1, digitVal d2,
            digitVal h1, digitVal h2, digitVal n1, digitVal n2,
            digitVal s1, digitVal s2 with
      | some a, some b, some c, some d, some e, some f, some g, some h,
        some i, some j, some k, some l, some m, some n =>
          let year := 1000 * a + 100 * b + 10 * c + d
          let month := 10 * e + f
          let day := 10 * g + h
          let hour := 10 * i + j
          let minute := 10 * k + l
          let second := 10 * m + n
          if 1 ≤ month ∧ month ≤ 12 ∧ 1 ≤ day ∧ day ≤ daysInMonth year month ∧
              hour ≤ 23 ∧ minute ≤ 59 ∧ second ≤ 59 then
            some (daysFromCivil (year : Int) month day * 86400 +
              (hour : Int) * 3600 + (minute : Int) * 60 + (second : Int))
          else none
      | _, _, _, _, _, _, _, _, _, _, _, _, _, _ => none
  | _ => none

/-! ## `Client._execute` -/

/-- The first half of `_execute`: the `_have_limit` probe and, when the
quota is insufficient, the blocking wait — `strptime` the `resetAt` text
(a non-string raises `TypeError`, a malformed string `ValueError`),
compute the wall-clock delta to `now`, and sleep for it plus the fixed
5-second margin (recorded in the trace). -/
def execPreamble (c : Client) (q : String) (env : Nat → Attempt) (now : Int)
    (tr : Trace) : Except ClientError Unit × Trace :=
  match haveLimit c q env tr with
  | (.error e, tr') => (.error e, tr')
  | (.ok (noLimit, reset), tr') =>
      if noLimit then
        match reset with
        | .str rs =>
            match parseResetAt rs with
            | none => (.error (.valueError "time data does not match format"), tr')
            | some t => (.ok (), ⟨tr'.k, tr'.reqs, tr'.sleeps ++ [t - now + 5]⟩)
        | _ => (.error (.typeError "strptime argument must be str"), tr')
      else (.ok (), tr')

/-- The response processing at the end of `_execute`: decode the JSON body
(`response.json()` raising is caught and re-raised as
`QueryFailedException`), then return `json_response["data"]` when the
status is 200 and the payload has no `errors` member, and raise
`QueryFailedException` otherwise. -/
def processResponse (q : String) (r : Response) : Except ClientError JVal :=
  match r.jsonBody with
  | none => .error (.queryFailed (some r) (some q))
  | some j =>
      if r.status = 200 && !jHasKey j "errors" then
        match j.getKey "data" with
        | some d => .ok d
        | none => .error (.keyError "data")
      else .error (.queryFailed (some r) (some q))

/-- `Client._execute`: probe-and-throttle preamble, then the retry-wrapped
POST of the real query, then response processing. -/
def execOne (c : Client) (q : String) (env : Nat → Attempt) (now : Int)
    (tr : Trace) : Except ClientError JVal × Trace :=
  match execPreamble c q env now tr with
  | (.error e, tr') => (.error e, tr')
  | (.ok _, tr') =>
      match retryRequest c q env tr' with
      | (.error e, tr'') => (.error e, tr'')
      | (.ok r, tr'') => (processResponse q r, tr'')

/-! ## Pagination (`Client._execution_generator`) -/

/-- Modelled from the spec: the pagination cursor state
(`QueryNodePaginator`, section 3): `end_cursor` optional and initially
null, `has_next` initially true; `update_paginator` overwrites both from
the server-reported values. -/
structure Paginator where
  endCursor : Option String
  hasNext : Bool

/-- Modelled from the spec: initial cursor state `(null, true)`. -/
def Paginator.start : Paginator := ⟨none, true⟩

/-- Modelled from the spec: `update_paginator(has_next_page, end_cursor)`
applies `has_next ← hasNextPage`, `end_cursor ← endCursor` (section 4.2). -/
def Paginator.update (hasNextPage : Bool) (endCursor : Option String) :
    Paginator := ⟨endCursor, hasNextPage⟩

/-- Modelled from the spec: a paginated query document (section 3): field
nodes, the path locating the paginated container inside a response
payload, and the mutable cursor. -/
structure PaginatedQuery where
  fields : FieldSeq
  path : List String
  paginator : Paginator

/-- The `for field_name in query.path: curr_node = curr_node[field_name]`
walk of `_execution_generator`: a step that cannot be resolved raises
(`KeyError` on a missing member — a non-object container raises
`TypeError`, which no property below distinguishes). -/
def resolvePath (j : JVal) : List String → Except ClientError JVal
  | [] => .ok j
  | f :: fs =>
      match j.getKey f with
      | some j' => resolvePath j' fs
      | none => .error (.keyError f)

/-- The Python value stored in `end_cursor`: the JSON `endCursor` is a
string or null (section 6). -/
def jvalCursor : JVal → Option String
  | .str s => some s
  | _ => none

/-- The reads `curr_node["pageInfo"]["endCursor"]` and
`curr_node["pageInfo"]["hasNextPage"]` of `_execution_generator`; a
missing member raises `KeyError`, and `hasNextPage` must be the boolean
the spec declares (section 6). -/
def readPageInfo (node : JVal) : Except ClientError (Option String × Bool) :=
  match node.getKey "pageInfo" with
  | none => .error (.keyError "pageInfo")
  | some pinfo =>
      match pinfo.getKey "endCursor" with
      | none => .error (.keyError "endCursor")
      | some ec =>
          match pinfo.getKey "hasNextPage" with
          | none => .error (.keyError "hasNextPage")
          | some hn =>
              match hn with
              | .bool b => .ok (jvalCursor ec, b)
              | _ => .error (.typeError "hasNextPage is not a bool")

/-- One iteration of the `while query.paginator.has_next()` loop body of
`_execution_generator`: a full `_execute` on the current rendering, the
path walk, the `pageInfo` reads, and `update_paginator` — all before the
payload is yielded. -/
def genStep (c : Client) (env : Nat → Attempt) (now : Int)
    (pq : PaginatedQuery) (tr : Trace) :
    Except ClientError (JVal × PaginatedQuery) × Trace :=
  match execOne c (renderQuery pq.fields) env now tr with
  | (.error e, tr') => (.error e, tr')
  | (.ok payload, tr') =>
      match resolvePath payload pq.path with
      | .error e => (.error e, tr')
      | .ok node =>
          match readPageInfo node with
          | .error e => (.error e, tr')
          | .ok (ec, hn) =>
              (.ok (payload, ⟨pq.fields, pq.path, Paginator.update hn ec⟩), tr')

/-- Prepend a freshly yielded payload to the result of draining the rest
of the generator. -/
def consPage (p : JVal) :
    List JVal × PaginatedQuery × Trace × Option ClientError →
    List JVal × PaginatedQuery × Trace × Option ClientError
  | (ps, pq, tr, e) => (p :: ps, pq, tr, e)

/-- `Client._execution_generator`, drained for up to `fuel` pages: the
loop runs while the cursor's `has_next` is true, each iteration yielding
one payload; an escaped exception ends the sequence (reported in the last
component) with no payload yielded for the failed page. -/
def genRun (c : Client) (env : Nat → Attempt) (now : Int) :
    Nat → PaginatedQuery → Trace →
    List JVal × PaginatedQuery × Trace × Option ClientError
  | 0, pq, tr => ([], pq, tr, none)
  | fuel + 1, pq, tr =>
      if pq.paginator.hasNext then
        match genStep c env now pq tr with
        | (.error e, tr') => ([], pq, tr', some e)
        | (.ok (p, pq'), tr') => consPage p (genRun c env now fuel pq' tr')
      else ([], pq, tr, none)

/-! ## `Client.execute` -/

/-- The argument of `Client.execute`: a plain query (already rendered to
its text, as `_retry_request` does for `Query` values) or a paginated
document. -/
inductive QueryInput where
  | plain (q : String)
  | paginated (pq : PaginatedQuery)

/-- The result of `Client.execute`: a single payload (or the raised
error), or the drained page sequence. -/
inductive ExecOutput where
  | payload (r : Except ClientError JVal)
  | pages (ys : List JVal) (pq : PaginatedQuery) (err : Option ClientError)

/-- `Client.execute`: dispatch on `isinstance(query, PaginatedQuery)` —
a paginated document produces the page generator (drained here for up to
`fuel` pages), anything else a single `_execute`. -/
def Client.execute (c : Client) (input : QueryInput) (env : Nat → Attempt)
    (now : Int) (fuel : Nat) (tr : Trace) : ExecOutput × Trace :=
  match input with
  | .paginated pq =>
      match genRun c env now fuel pq tr with
      | (ys, pq', tr', e) => (.pages ys pq' e, tr')
  | .plain q =>
      match execOne c q env now tr with
      | (r, tr') => (.payload r, tr')

/-! ## Concrete scenario data -/

/-- A cost-probe response body `data.rateLimit = \x7bcost, remaining, resetAt\x7d`. -/
def probeBody (cost remaining : Int) (resetAt : String) : JVal :=
  .obj [("data", .obj [("rateLimit", .obj
    [("cost", .num cost), ("remaining", .num remaining),
     ("resetAt", .str resetAt)])])]

/-- A 200 response carrying the given decoded body. -/
def okResp (j : JVal) : Response := ⟨200, some j, "", "/graphql"⟩

/-- The `pageInfo` object of a page response. -/
def pageInfoObj (ec : String) (hn : Bool) : JVal :=
  .obj [("endCursor", .str ec), ("hasNextPage", .bool hn)]

/-- The `data` payload of one page of a `user.gists` paginated response. -/
def pagePayload (ec : String) (hn : Bool) : JVal :=
  .obj [("user", .obj [("gists", .obj
    [("totalCount", .num 2), ("pageInfo", pageInfoObj ec hn)])])]

/-- A full page response body. -/
def pageBody (ec : String) (hn : Bool) : JVal :=
  .obj [("data", pagePayload ec hn)]

/-- A test authenticator. -/
def authTest : Authenticator := ⟨[("Authorization", "token test")]⟩

/-- A test client with the default configuration: 3 retry attempts,
10-second timeout. -/
def clientTest : Client := ⟨"https", "api.github.com", false, 3, 10, authTest⟩

/-- The paginated `user.gists` document of the two-page scenario. -/
def fieldsPages : FieldSeq :=
  .cons (.node "user" [("login", .str "$user")]
    (.cons (.node "gists" [("first", .str "$pg_size")]
      (.cons (.str "totalCount")
        (.cons (.node "pageInfo" []
          (.cons (.str "endCursor") (.cons (.str "hasNextPage") .nil)))
          .nil)))
      .nil))
    .nil

/-- The two-page paginated query, cursor in its initial state. -/
def pqPages : PaginatedQuery := ⟨fieldsPages, ["user", "gists"], Paginator.start⟩

/-- The rendered text of the two-page document. -/
def pageQ : String := renderQuery fieldsPages

/-- The rendered cost-probe text `_have_limit` sends for the two-page
document. -/
def probeQ : String :=
  renderQuery (probeFields ((reSearchQueryBrace pageQ).getD "") true)

/-- Network oracle of the two-page scenario: probe, page 1
(`hasNextPage=true, endCursor="C1"`), probe, page 2
(`hasNextPage=false, endCursor="C2"`); anything beyond would time out. -/
def envPages : Nat → Attempt
  | 0 => .resp (okResp (probeBody 1 5000 "2030-01-01T00:00:00Z"))
  | 1 => .resp (okResp (pageBody "C1" true))
  | 2 => .resp (okResp (probeBody 1 5000 "2030-01-01T00:00:00Z"))
  | 3 => .resp (okResp (pageBody "C2" false))
  | _ + 4 => .timeout

/-- Document state after page 1: cursor `"C1"`, more pages expected. -/
def pqMid : PaginatedQuery := ⟨fieldsPages, ["user", "gists"], ⟨some "C1", true⟩⟩

/-- Document state after page 2: cursor `"C2"`, exhausted. -/
def pqFin : PaginatedQuery := ⟨fieldsPages, ["user", "gists"], ⟨some "C2", false⟩⟩

/-- Trace after page 1: two POSTs (probe then page), no sleep. -/
def trMid : Trace := ⟨2, [probeQ, pageQ], []⟩

/-- Trace after page 2: four POSTs, no sleep. -/
def trFin : Trace := ⟨4, [probeQ, pageQ, probeQ, pageQ], []⟩

/-- A plain (non-paginated) query used in concrete scenarios; its regex
content is `viewer`. -/
def plainQ : String := "query \x7bviewer\x7d"

/-- The `resetAt` text used in concrete scenarios;
`parseResetAt` maps it to the epoch second 1893456600. -/
def resetT : String := "2030-01-01T00:10:00Z"

/-- A 500 response with an undecodable body. -/
def resp500 : Response := ⟨500, none, "Internal Server Error", "/graphql"⟩

/-- The 404 response of the failure scenario. -/
def resp404 : Response := ⟨404, none, "\x7b\"message\":\"Not Found\"\x7d", "/graphql"⟩

/-- A network where every POST times out. -/
def envTimeouts : Nat → Attempt := fun _ => .timeout

/-- A network where every POST draws the 404 response. -/
def env404 : Nat → Attempt := fun _ => .resp resp404

/-- A network whose first POST times out, second draws a 500, third a 200
with an empty object body. -/
def envMixed : Nat → Attempt
  | 0 => .timeout
  | 1 => .resp resp500
  | _ + 2 => .resp (okResp (.obj []))

/-- A network whose cost probe reports `cost=40, remaining=100`: the
throttle must engage for a client with 3 retry attempts. -/
def envC2hot : Nat → Attempt
  | 0 => .resp (okResp (probeBody 40 100 resetT))
  | _ + 1 => .timeout

/-- A network whose cost probe reports `cost=40, remaining=130`: the
throttle must not engage for a client with 3 retry attempts. -/
def envC2cold : Nat → Attempt
  | 0 => .resp (okResp (probeBody 40 130 resetT))
  | _ + 1 => .timeout

/-- The trace after the single probe POST of the throttle scenarios. -/
def trProbe1 : Trace := ⟨1, [renderQuery (probeFields "viewer" true)], []⟩

/-- The end-to-end scenario payload: the user object of the spec's mocked
login response. -/
def octoData : JVal :=
  .obj [("user", .obj
    [("login", .str "octocat"), ("name", .str "The Octocat"),
     ("id", .str "1"), ("email", .str ""),
     ("createdAt", .str "2011-01-25T18:44:36Z")])]

/-- Network of the end-to-end success scenario: cheap probe, then a 200
response whose body is `\x7b"data": <octoData>\x7d`. -/
def envOcto : Nat → Attempt
  | 0 => .resp (okResp (probeBody 1 5000 resetT))
  | _ + 1 => .resp (okResp (.obj [("data", octoData)]))

/-- Network of the malformed-pagination scenario: cheap probe, then a 200
page response whose payload has no `user` member. -/
def envBadPage : Nat → Attempt
  | 0 => .resp (okResp (probeBody 1 5000 resetT))
  | _ + 1 => .resp (okResp (.obj [("data", .obj [("wrong", .num 1)])]))

/-- A minimal paginated document over path `user`. -/
def pqUser : PaginatedQuery :=
  ⟨.cons (.node "user" [] (.cons (.str "login") .nil)) .nil, ["user"],
   Paginator.start⟩

/-- Network of the missing-`pageInfo` pagination scenario: cheap probe,
then a 200 page response whose payload resolves the declared path `user`
but whose resolved subtree has no `pageInfo` member. -/
def envNoPageInfo : Nat → Attempt
  | 0 => .resp (okResp (probeBody 1 5000 resetT))
  | _ + 1 => .resp (okResp (.obj
      [("data", .obj [("user", .obj [("login", .str "octocat")])])]))

/-! ## Lemmas about the retry loop -/

/-- Whatever happens, a run of the retry loop issues `m ≤ fuel` POSTs, all
of the same query, and never sleeps. -/
theorem retryGo_trace (q : String) (env : Nat → Attempt) :
    ∀ (fuel : Nat) (tr : Trace) (l : Option Response) (s : Bool),
    ∃ m, m ≤ fuel ∧ (retryRequestGo q env fuel tr l s).2 =
      ⟨tr.k + m, tr.reqs ++ List.replicate m q, tr.sleeps⟩ := by
  intro fuel
  induction fuel with
  | zero =>
      intro tr l s
      exact ⟨0, Nat.le_refl 0, by simp [retryRequestGo]⟩
  | succ n ih =>
      intro tr l s
      simp only [retryRequestGo]
      cases henv : env tr.k with
      | timeout =>
          obtain ⟨m, hm, heq⟩ := ih ⟨tr.k + 1, tr.reqs ++ [q], tr.sleeps⟩ l true
          refine ⟨m + 1, by omega, ?_⟩
          rw [heq]
          simp [List.replicate_succ, Nat.add_assoc, Nat.add_comm 1 m]
      | resp r =>
          by_cases hst : r.status = 200
          · refine ⟨1, by omega, ?_⟩
            simp [hst]
          · obtain ⟨m, hm, heq⟩ := ih ⟨tr.k + 1, tr.reqs ++ [q], tr.sleeps⟩ (some r) s
            refine ⟨m + 1, by omega, ?_⟩
            simp only [if_neg hst]
            rw [heq]
            simp [List.replicate_succ, Nat.add_assoc, Nat.add_comm 1 m]

/-- A successful run of the retry loop issues between 1 and `fuel` POSTs. -/
theorem retryGo_ok_trace (q : String) (env : Nat → Attempt) :
    ∀ (fuel : Nat) (tr : Trace) (l : Option Response) (s : Bool)
      (r : Response) (tr' : Trace),
    retryRequestGo q env fuel tr l s = (.ok r, tr') →
    ∃ m, 1 ≤ m ∧ m ≤ fuel ∧
      tr' = ⟨tr.k + m, tr.reqs ++ List.replicate m q, tr.sleeps⟩ := by
  intro fuel
  induction fuel with
  | zero =>
      intro tr l s r tr' h
      by_cases hs : s <;> simp [retryRequestGo, hs] at h
  | succ n ih =>
      intro tr l s r tr' h
      cases henv : env tr.k with
      | timeout =>
          simp only [retryRequestGo, henv] at h
          obtain ⟨m, hm1, hmn, heq⟩ := ih _ _ _ _ _ h
          refine ⟨m + 1, by omega, by omega, ?_⟩
          rw [heq]
          simp [List.replicate_succ, Nat.add_assoc, Nat.add_comm 1 m]
      | resp rr =>
          by_cases hst : rr.status = 200
          · simp only [retryRequestGo, henv, if_pos hst] at h
            refine ⟨1, Nat.le_refl 1, by omega, ?_⟩
            cases h
            rfl
          · simp only [retryRequestGo, henv, if_neg hst] at h
            obtain ⟨m, hm1, hmn, heq⟩ := ih _ _ _ _ _ h
            refine ⟨m + 1, by omega, by omega, ?_⟩
            rw [heq]
            simp [List.replicate_succ, Nat.add_assoc, Nat.add_comm 1 m]

/-- The retry loop only ever returns a response whose status is 200. -/
theorem retryGo_ok_status (q : String) (env : Nat → Attempt) :
    ∀ (fuel : Nat) (tr : Trace) (l : Option Response) (s : Bool)
      (r : Response) (tr' : Trace),
    retryRequestGo q env fuel tr l s = (.ok r, tr') → r.status = 200 := by
  intro fuel
  induction fuel with
  | zero =>
      intro tr l s r tr' h
      by_cases hs : s <;> simp [retryRequestGo, hs] at h
  | succ n ih =>
      intro tr l s r tr' h
      cases henv : env tr.k with
      | timeout =>
          simp only [retryRequestGo, henv] at h
          exact ih _ _ _ _ _ h
      | resp rr =>
          by_cases hst : rr.status = 200
          · simp only [retryRequestGo, henv, if_pos hst] at h
            cases h
            exact hst
          · simp only [retryRequestGo, henv, if_neg hst] at h
            exact ih _ _ _ _ _ h

/-- The retry loop returns on the first 200 response: if attempt `i` is a
200 response and every earlier attempt failed (timeout or non-200), the
loop returns that response having issued exactly `i + 1` POSTs. -/
theorem retryGo_first200 (q : String) (env : Nat → Attempt) :
    ∀ (i fuel : Nat) (tr : Trace) (l : Option Response) (s : Bool)
      (r : Response),
    i < fuel → env (tr.k + i) = .resp r → r.status = 200 →
    (∀ j, j < i → attemptFailed (env (tr.k + j)) = true) →
    retryRequestGo q env fuel tr l s =
      (.ok r, ⟨tr.k + (i + 1), tr.reqs ++ List.replicate (i + 1) q, tr.sleeps⟩) := by
  intro i
  induction i with
  | zero =>
      intro fuel tr l s r hif henv hst _
      cases fuel with
      | zero => omega
      | succ n =>
          have henv' : env tr.k = .resp r := by simpa using henv
          simp only [retryRequestGo, henv', if_pos hst]
          rfl
  | succ i ih =>
      intro fuel tr l s r hif henv hst hfail
      cases fuel with
      | zero => omega
      | succ n =>
          have h0 := hfail 0 (Nat.succ_pos i)
          rw [show tr.k + 0 = tr.k from rfl] at h0
          cases henv0 : env tr.k with
          | timeout =>
              simp only [retryRequestGo, henv0]
              have hrec := ih n ⟨tr.k + 1, tr.reqs ++ [q], tr.sleeps⟩ l true r
                (by omega)
                (by simpa [Nat.add_assoc, Nat.add_comm 1 i] using henv)
                hst
                (by
                  intro j hj
                  have := hfail (j + 1) (by omega)
                  simpa [Nat.add_assoc, Nat.add_comm 1 j] using this)
              rw [hrec]
              simp [List.replicate_succ, Nat.add_assoc, Nat.add_comm 1 i,
                Nat.add_comm 1 (i + 1)]
          | resp rr =>
              rw [henv0] at h0
              have hne : ¬ rr.status = 200 := by
                simpa [attemptFailed] using h0
              simp only [retryRequestGo, henv0, if_neg hne]
              have hrec := ih n ⟨tr.k + 1, tr.reqs ++ [q], tr.sleeps⟩ (some rr) s r
                (by omega)
                (by simpa [Nat.add_assoc, Nat.add_comm 1 i] using henv)
                hst
                (by
                  intro j hj
                  have := hfail (j + 1) (by omega)
                  simpa [Nat.add_assoc, Nat.add_comm 1 j] using this)
              rw [hrec]
              simp [List.replicate_succ, Nat.add_assoc, Nat.add_comm 1 i,
                Nat.add_comm 1 (i + 1)]

/-- With `last_exception` already set, a run whose remaining attempts all
time out ends in the `Timeout` raise. -/
theorem retryGo_timeout_sticky (q : String) (env : Nat → Attempt) :
    ∀ (fuel : Nat) (tr : Trace) (l : Option Response),
    (∀ i, i < fuel → env (tr.k + i) = .timeout) →
    retryRequestGo q env fuel tr l true =
      (.error .timeoutExhausted,
       ⟨tr.k + fuel, tr.reqs ++ List.replicate fuel q, tr.sleeps⟩) := by
  intro fuel
  induction fuel with
  | zero =>
      intro tr l _
      simp [retryRequestGo]
  | succ n ih =>
      intro tr l hto
      have h0 : env tr.k = .timeout := by simpa using hto 0 (Nat.succ_pos n)
      simp only [retryRequestGo, h0]
      have hrec := ih ⟨tr.k + 1, tr.reqs ++ [q], tr.sleeps⟩ l
        (by
          intro i hi
          have := hto (i + 1) (by omega)
          simpa [Nat.add_assoc, Nat.add_comm 1 i] using this)
      rw [hrec]
      simp [List.replicate_succ, Nat.add_assoc, Nat.add_comm 1 n]

/-- If at least one attempt is made and every attempt times out, the retry
loop raises `Timeout("All retry attempts exhausted.")` — never
`QueryFailedException`. -/
theorem retryGo_all_timeout (q : String) (env : Nat → Attempt) :
    ∀ (fuel : Nat) (tr : Trace) (l : Option Response) (s : Bool),
    1 ≤ fuel →
    (∀ i, i < fuel → env (tr.k + i) = .timeout) →
    retryRequestGo q env fuel tr l s =
      (.error .timeoutExhausted,
       ⟨tr.k + fuel, tr.reqs ++ List.replicate fuel q, tr.sleeps⟩) := by
  intro fuel tr l s hfuel hto
  cases fuel with
  | zero => omega
  | succ n =>
      have h0 : env tr.k = .timeout := by simpa using hto 0 (Nat.succ_pos n)
      simp only [retryRequestGo, h0]
      have hrec := retryGo_timeout_sticky q env n
        ⟨tr.k + 1, tr.reqs ++ [q], tr.sleeps⟩ l
        (by
          intro i hi
          have := hto (i + 1) (by omega)
          simpa [Nat.add_assoc, Nat.add_comm 1 i] using this)
      rw [hrec]
      simp [List.replicate_succ, Nat.add_assoc, Nat.add_comm 1 n]

/-- If every attempt draws a non-200 response and no timeout occurs, the
retry loop exhausts its budget and raises `QueryFailedException`
referencing the last response received. -/
theorem retryGo_all_non200 (q : String) (env : Nat → Attempt) :
    ∀ (rs : List Response) (tr : Trace) (l : Option Response),
    (∀ i (h : i < rs.length), env (tr.k + i) = .resp (rs.get ⟨i, h⟩)) →
    (∀ r, r ∈ rs → r.status ≠ 200) →
    retryRequestGo q env rs.length tr l false =
      (.error (.queryFailed (rs.getLast?.elim l some) (some q)),
       ⟨tr.k + rs.length, tr.reqs ++ List.replicate rs.length q, tr.sleeps⟩) := by
  intro rs
  induction rs with
  | nil =>
      intro tr l _ _
      simp [retryRequestGo]
  | cons r rest ih =>
      intro tr l hresp hstat
      have h0 : env tr.k = .resp r := by
        simpa using hresp 0 (Nat.succ_pos rest.length)
      have hne : ¬ r.status = 200 := hstat r (List.mem_cons_self r rest)
      simp only [List.length_cons, retryRequestGo, h0, if_neg hne]
      have hrec := ih ⟨tr.k + 1, tr.reqs ++ [q], tr.sleeps⟩ (some r)
        (by
          intro i hi
          have := hresp (i + 1) (by simp only [List.length_cons]; omega)
          simpa [Nat.add_assoc, Nat.add_comm 1 i] using this)
        (by
          intro x hx
          exact hstat x (List.mem_cons_of_mem r hx))
      rw [hrec]
      have hlast : (rest.getLast?.elim (some r) some) =
          ((r :: rest).getLast?.elim l some) := by
        cases rest with
        | nil => rfl
        | cons g gs =>
            rw [List.getLast?_cons_cons]
            cases hgl : (g :: gs).getLast? with
            | none => simp [List.getLast?] at hgl
            | some x => rfl
      rw [hlast]
      simp [List.replicate_succ, Nat.add_assoc, Nat.add_comm 1 rest.length]

/-! ## Lemmas about the regex and the execute pipeline -/

/-- A successful `(?P<content>.+)\x7d` match captures at least one character. -/
theorem braceContent_ne_nil (cs out : List Char)
    (h : braceContent cs = some out) : out ≠ [] := by
  simp only [braceContent] at h
  split at h
  case isTrue h2 =>
      cases h
      intro hnil
      have h3 := congrArg List.length hnil
      simp only [List.length_dropLast, List.length_nil] at h3
      omega
  case isFalse => exact absurd h (by simp)

/-- An anchored match of the cost-extraction pattern captures at least one
character. -/
theorem matchAt_ne_nil (cs out : List Char)
    (h : matchQueryBraceAt cs = some out) : out ≠ [] := by
  unfold matchQueryBraceAt at h
  split at h
  case _ rest =>
      split at h
      case _ body => exact braceContent_ne_nil _ _ h
      case _ => exact absurd h (by simp)
  case _ => exact absurd h (by simp)

/-- `re.search` of the cost-extraction pattern captures at least one
character. -/
theorem reSearchGo_ne_nil :
    ∀ (cs out : List Char), reSearchGo cs = some out → out ≠ [] := by
  intro cs
  induction cs with
  | nil =>
      intro out h
      simp [reSearchGo] at h
  | cons c rest ih =>
      intro out h
      simp only [reSearchGo] at h
      cases hm : matchQueryBraceAt (c :: rest) with
      | some content =>
          rw [hm] at h
          cases h
          exact matchAt_ne_nil _ _ hm
      | none =>
          rw [hm] at h
          exact ih out h

/-- The content captured by `_have_limit`'s regex is a non-empty string,
so the `QueryCost` constructor's empty-body check never fires on it. -/
theorem reSearch_content_ne_empty (s content : String)
    (h : reSearchQueryBrace s = some content) : content ≠ "" := by
  unfold reSearchQueryBrace at h
  cases hgo : reSearchGo s.data with
  | none => rw [hgo] at h; simp at h
  | some cs =>
      rw [hgo] at h
      have hne := reSearchGo_ne_nil s.data cs hgo
      have hcontent : content = String.mk cs := by
        have h2 : some (String.mk cs) = some content := h
        exact (Option.some.inj h2).symm
      intro he
      rw [hcontent] at he
      exact hne (congrArg String.data he)

/-- On non-empty content the `QueryCost` constructor succeeds with the
probe field list. -/
theorem queryCostFields_ok (content : String) (dryrun : Bool)
    (h : content ≠ "") :
    queryCostFields content dryrun = .ok (probeFields content dryrun) := by
  simp [queryCostFields, h]

/-- A successful `_have_limit` run found the regex content and issued
`1 ≤ a ≤ retry_attempts` POSTs, all of the rendered `dryrun=True` cost
probe, and did not sleep. -/
theorem haveLimit_ok_shape (c : Client) (q : String) (env : Nat → Attempt)
    (tr : Trace) (b : Bool) (reset : JVal) (tr' : Trace)
    (h : haveLimit c q env tr = (.ok (b, reset), tr')) :
    ∃ content a, reSearchQueryBrace q = some content ∧
      1 ≤ a ∧ a ≤ c.retryAttempts ∧
      tr' = ⟨tr.k + a,
        tr.reqs ++ List.replicate a (renderQuery (probeFields content true)),
        tr.sleeps⟩ := by
  cases hre : reSearchQueryBrace q with
  | none => simp only [haveLimit, hre] at h; exact absurd h (by simp)
  | some content =>
      have hne := reSearch_content_ne_empty q content hre
      simp only [haveLimit, hre, queryCostFields_ok content true hne] at h
      cases hrr : retryRequest c (renderQuery (probeFields content true)) env tr with
      | mk res tr₁ =>
          rw [hrr] at h
          cases res with
          | error e => simp at h
          | ok r =>
              obtain ⟨m, hm1, hmn, htr⟩ :=
                retryGo_ok_trace (renderQuery (probeFields content true)) env
                  c.retryAttempts tr none false r tr₁ hrr
              simp only [] at h
              cases hj : r.jsonBody with
              | none => rw [hj] at h; simp at h
              | some j =>
                  simp only [hj] at h
                  cases hps : probeSnapshot j with
                  | error e => simp only [hps] at h; simp at h
                  | ok crr =>
                      obtain ⟨cost, remaining, rst⟩ := crr
                      simp only [hps] at h
                      simp only [Prod.mk.injEq] at h
                      obtain ⟨_, htr'⟩ := h
                      exact ⟨content, m, rfl, hm1, hmn, by rw [← htr', htr]⟩

/-- A successful `_execute` preamble (probe plus possible throttle wait)
issued `a ≥ 1` POSTs of the rendered cost probe and nothing else. -/
theorem execPreamble_ok_shape (c : Client) (q : String) (env : Nat → Attempt)
    (now : Int) (tr tr' : Trace)
    (h : execPreamble c q env now tr = (.ok (), tr')) :
    ∃ content a, reSearchQueryBrace q = some content ∧ 1 ≤ a ∧
      tr'.k = tr.k + a ∧
      tr'.reqs = tr.reqs ++
        List.replicate a (renderQuery (probeFields content true)) := by
  unfold execPreamble at h
  cases hhl : haveLimit c q env tr with
  | mk res tr₁ =>
      rw [hhl] at h
      cases res with
      | error e => simp at h
      | ok br =>
          obtain ⟨b, reset⟩ := br
          obtain ⟨content, a, hre, ha1, _, htr⟩ :=
            haveLimit_ok_shape c q env tr b reset tr₁ hhl
          refine ⟨content, a, hre, ha1, ?_⟩
          cases b with
          | false =>
              simp only [Bool.false_eq_true, if_false] at h
              simp only [Prod.mk.injEq] at h
              obtain ⟨_, htr'⟩ := h
              rw [← htr', htr]
              exact ⟨rfl, rfl⟩
          | true =>
              simp only [if_true] at h
              cases reset with
              | str rs =>
                  cases hp : parseResetAt rs with
                  | none => simp only [hp] at h; simp at h
                  | some t =>
                      simp only [hp] at h
                      simp only [Prod.mk.injEq] at h
                      obtain ⟨_, htr'⟩ := h
                      rw [← htr', htr]
                      exact ⟨rfl, rfl⟩
              | null => simp at h
              | bool x => simp at h
              | num x => simp at h
              | arr x => simp at h
              | obj x => simp at h

/-- A successful `_execute` run issued `a ≥ 1` POSTs of the rendered
`dryrun=True` cost probe followed by `b ≥ 1` POSTs of the query itself,
and nothing else. -/
theorem execOne_ok_reqs (c : Client) (q : String) (env : Nat → Attempt)
    (now : Int) (tr : Trace) (v : JVal) (tr₂ : Trace)
    (h : execOne c q env now tr = (.ok v, tr₂)) :
    ∃ content a b, reSearchQueryBrace q = some content ∧ 1 ≤ a ∧ 1 ≤ b ∧
      tr₂.reqs = tr.reqs ++
        (List.replicate a (renderQuery (probeFields content true)) ++
         List.replicate b q) := by
  unfold execOne at h
  cases hpre : execPreamble c q env now tr with
  | mk pres tr₁ =>
      rw [hpre] at h
      cases pres with
      | error e => simp at h
      | ok u =>
          cases u
          obtain ⟨content, a, hre, ha1, hk, hreqs⟩ :=
            execPreamble_ok_shape c q env now tr tr₁ hpre
          cases hrr : retryRequest c q env tr₁ with
          | mk res2 trB =>
              simp only [hrr] at h
              cases res2 with
              | error e => simp at h
              | ok r =>
                  obtain ⟨m, hm1, _, htrB⟩ :=
                    retryGo_ok_trace q env c.retryAttempts tr₁ none false r trB hrr
                  simp only [Prod.mk.injEq] at h
                  obtain ⟨_, htr₂⟩ := h
                  refine ⟨content, a, m, hre, ha1, hm1, ?_⟩
                  rw [← htr₂, htrB]
                  simp only [hreqs]
                  rw [List.append_assoc]

/-! ## Lemmas about the pagination generator -/

/-- Once the cursor's `has_next` is false the generator's loop guard fails
immediately: nothing is yielded, no POST is issued, no error occurs. -/
theorem genRun_done (c : Client) (env : Nat → Attempt) (now : Int)
    (fuel : Nat) (pq : PaginatedQuery) (tr : Trace)
    (h : pq.paginator.hasNext = false) :
    genRun c env now fuel pq tr = ([], pq, tr, none) := by
  cases fuel with
  | zero => simp [genRun]
  | succ n => simp [genRun, h]

/-- Unfolding of one generator iteration when the loop guard holds. -/
theorem genRun_succ (c : Client) (env : Nat → Attempt) (now : Int)
    (fuel : Nat) (pq : PaginatedQuery) (tr : Trace)
    (h : pq.paginator.hasNext = true) :
    genRun c env now (fuel + 1) pq tr =
      (match genStep c env now pq tr with
       | (.error e, tr') => ([], pq, tr', some e)
       | (.ok (p, pq'), tr') => consPage p (genRun c env now fuel pq' tr')) := by
  simp [genRun, h]

/-- A successful generator iteration keeps the document's fields and path,
and its network effect is a block of `a ≥ 1` POSTs of the rendered
`dryrun=True` cost probe followed by `b ≥ 1` POSTs of the page query. -/
theorem genStep_ok_shape (c : Client) (env : Nat → Attempt) (now : Int)
    (pq : PaginatedQuery) (tr : Trace) (p : JVal) (pq' : PaginatedQuery)
    (tr' : Trace)
    (h : genStep c env now pq tr = (.ok (p, pq'), tr')) :
    pq'.fields = pq.fields ∧ pq'.path = pq.path ∧
    ∃ content a b,
      reSearchQueryBrace (renderQuery pq.fields) = some content ∧
      1 ≤ a ∧ 1 ≤ b ∧
      tr'.reqs = tr.reqs ++
        (List.replicate a (renderQuery (probeFields content true)) ++
         List.replicate b (renderQuery pq.fields)) := by
  unfold genStep at h
  cases hx : execOne c (renderQuery pq.fields) env now tr with
  | mk xres trA =>
      rw [hx] at h
      cases xres with
      | error e => simp at h
      | ok payload =>
          cases hrp : resolvePath payload pq.path with
          | error e => simp only [hrp] at h; simp at h
          | ok node =>
              simp only [hrp] at h
              cases hpi : readPageInfo node with
              | error e => simp only [hpi] at h; simp at h
              | ok echn =>
                  obtain ⟨ec, hn⟩ := echn
                  simp only [hpi] at h
                  simp only [Prod.mk.injEq, Except.ok.injEq] at h
                  obtain ⟨⟨hp, hpq⟩, htr⟩ := h
                  obtain ⟨content, a, b, hre, ha, hb, hreqs⟩ :=
                    execOne_ok_reqs c (renderQuery pq.fields) env now tr payload
                      trA hx
                  subst hp
                  refine ⟨?_, ?_, content, a, b, hre, ha, hb, ?_⟩
                  · rw [← hpq]
                  · rw [← hpq]
                  · rw [← htr]
                    exact hreqs

/-! ## Claim theorems -/

/-- C9: constructing an Execution Client without an authenticator fails
immediately at construction time with the configuration error (and, being
pure, before any request is made); construction with an authenticator
succeeds and stores the configuration. -/
theorem c9_client_requires_authenticator (protocol host : String)
    (isEnterprise : Bool) (retryAttempts timeoutSeconds : Nat) :
    clientInit protocol host isEnterprise none retryAttempts timeoutSeconds =
      .error (.invalidAuthentication "Authentication needs to be specified") ∧
    ∀ a : Authenticator,
      clientInit protocol host isEnterprise (some a) retryAttempts
          timeoutSeconds =
        .ok ⟨protocol, host, isEnterprise, retryAttempts, timeoutSeconds, a⟩ :=
  ⟨rfl, fun _ => rfl⟩

/-- C6: constructing a cost-probe document fails if and only if the given
body is empty; for every non-empty body it succeeds, and the `rateLimit`
probe node carries the given dryrun flag verbatim alongside the `cost`,
`remaining` and `resetAt` fields. -/
theorem c6_query_cost_construction (body : String) (dryrun : Bool) :
    ((∃ e, queryCostFields body dryrun = .error e) ↔ body = "") ∧
    (body ≠ "" →
      queryCostFields body dryrun = .ok (probeFields body dryrun) ∧
      probeFields body dryrun =
        .cons (.str body)
          (.cons (.node "rateLimit" [("dryrun", .bool dryrun)]
            (.cons (.str "cost") (.cons (.str "remaining")
              (.cons (.str "resetAt") .nil)))) .nil)) := by
  constructor
  · constructor
    · rintro ⟨e, he⟩
      by_contra hne
      rw [queryCostFields_ok body dryrun hne] at he
      cases he
    · intro h
      subst h
      exact ⟨.valueError "Test query must not be empty", rfl⟩
  · intro hne
    exact ⟨queryCostFields_ok body dryrun hne, rfl⟩

/-- Witness for C6 at a concrete non-empty and a concrete empty body. -/
theorem c6_query_cost_construction_witness :
    queryCostFields "viewer" true = .ok (probeFields "viewer" true) ∧
    (∃ e, queryCostFields "" false = .error e) :=
  ⟨((c6_query_cost_construction "viewer" true).2 (by decide)).1,
   (c6_query_cost_construction "" false).1.mpr rfl⟩

/-- C10: when the rendered query text does not match
`query\s*\x7b(.+)\x7d`, `_have_limit` dereferences the failed match and
raises `AttributeError` — before any HTTP request is issued (the trace is
unchanged) and with none of the client's deliberate error kinds; the
error propagates through `_execute`. -/
theorem c10_regex_mismatch_attribute_crash (c : Client) (q : String)
    (env : Nat → Attempt) (now : Int) (tr : Trace)
    (h : reSearchQueryBrace q = none) :
    haveLimit c q env tr =
      (.error (.attributeError "NoneType object has no attribute group"), tr) ∧
    execOne c q env now tr =
      (.error (.attributeError "NoneType object has no attribute group"), tr) := by
  have h1 : haveLimit c q env tr =
      (.error (.attributeError "NoneType object has no attribute group"), tr) := by
    simp only [haveLimit, h]
  refine ⟨h1, ?_⟩
  simp only [execOne, execPreamble, h1]

/-- Witness for C10: a document text with a newline between the braces
does not match the pattern (the dot does not match newlines), and the
client crashes with the attribute error without issuing a request. -/
theorem c10_regex_mismatch_attribute_crash_witness :
    reSearchQueryBrace "query \x7b\nviewer\n\x7d" = none ∧
    haveLimit clientTest "query \x7b\nviewer\n\x7d" envPages Trace.init =
      (.error (.attributeError "NoneType object has no attribute group"),
       Trace.init) ∧
    reSearchQueryBrace "viewer" = none :=
  ⟨rfl,
   (c10_regex_mismatch_attribute_crash clientTest "query \x7b\nviewer\n\x7d"
     envPages 0 Trace.init rfl).1,
   rfl⟩

/-- C3: the retry-wrapped call makes at most `retry_attempts` POSTs; it
returns immediately on the first attempt whose status is 200 (having made
exactly that many attempts and no more); if every attempt times out it
fails with the timeout-exhaustion error — never a query-failure error. -/
theorem c3_retry_bounded_shortcircuit (c : Client) (q : String)
    (env : Nat → Attempt) (tr : Trace) :
    (∃ m, m ≤ c.retryAttempts ∧
      (retryRequest c q env tr).2 =
        ⟨tr.k + m, tr.reqs ++ List.replicate m q, tr.sleeps⟩) ∧
    (∀ i r, i < c.retryAttempts → env (tr.k + i) = .resp r →
      r.status = 200 →
      (∀ j, j < i → attemptFailed (env (tr.k + j)) = true) →
      retryRequest c q env tr =
        (.ok r, ⟨tr.k + (i + 1), tr.reqs ++ List.replicate (i + 1) q,
          tr.sleeps⟩)) ∧
    (1 ≤ c.retryAttempts →
      (∀ i, i < c.retryAttempts → env (tr.k + i) = .timeout) →
      retryRequest c q env tr =
        (.error .timeoutExhausted,
         ⟨tr.k + c.retryAttempts,
          tr.reqs ++ List.replicate c.retryAttempts q, tr.sleeps⟩)) := by
  refine ⟨retryGo_trace q env c.retryAttempts tr none false, ?_, ?_⟩
  · intro i r hi henv hst hfail
    exact retryGo_first200 q env i c.retryAttempts tr none false r hi henv hst
      hfail
  · intro h1 hto
    exact retryGo_all_timeout q env c.retryAttempts tr none false h1 hto

/-- Witness for C3: with 3 attempts, a timeout then a 500 then a 200
returns the 200 after exactly 3 POSTs, and three straight timeouts raise
the timeout-exhaustion error. -/
theorem c3_retry_bounded_shortcircuit_witness :
    retryRequest clientTest plainQ envMixed Trace.init =
      (.ok (okResp (.obj [])),
       ⟨Trace.init.k + (2 + 1),
        Trace.init.reqs ++ List.replicate (2 + 1) plainQ,
        Trace.init.sleeps⟩) ∧
    retryRequest clientTest plainQ envTimeouts Trace.init =
      (.error .timeoutExhausted,
       ⟨Trace.init.k + clientTest.retryAttempts,
        Trace.init.reqs ++ List.replicate clientTest.retryAttempts plainQ,
        Trace.init.sleeps⟩) :=
  ⟨(c3_retry_bounded_shortcircuit clientTest plainQ envMixed Trace.init).2.1
      2 (okResp (.obj [])) (by decide) rfl rfl
      (fun j hj => by interval_cases j <;> rfl),
   (c3_retry_bounded_shortcircuit clientTest plainQ envTimeouts
      Trace.init).2.2 (by decide) (fun i _ => rfl)⟩

/-- C5: when every attempt completes without a timeout but none returns
200, the call fails with a query-failure error referencing the last
response received, and the raised message contains the status code and
the raw response body text. -/
theorem c5_exhausted_non200_query_failure (c : Client) (q : String)
    (env : Nat → Attempt) (tr : Trace) (rs : List Response)
    (hn : 1 ≤ c.retryAttempts)
    (hlen : rs.length = c.retryAttempts)
    (hresp : ∀ i (h : i < rs.length), env (tr.k + i) = .resp (rs.get ⟨i, h⟩))
    (hstat : ∀ r, r ∈ rs → r.status ≠ 200) :
    ∃ rl, rs.getLast? = some rl ∧
      retryRequest c q env tr =
        (.error (.queryFailed (some rl) (some q)),
         ⟨tr.k + c.retryAttempts,
          tr.reqs ++ List.replicate c.retryAttempts q, tr.sleeps⟩) ∧
      ∃ mid, queryFailedMessage rl (some q) =
        "Query failed with code " ++ toString rl.status ++ mid ++ rl.text := by
  have hne : rs ≠ [] := by
    intro h0
    rw [h0] at hlen
    simp at hlen
    omega
  obtain ⟨rl, hrl⟩ : ∃ rl, rs.getLast? = some rl := by
    cases hgl : rs.getLast? with
    | some x => exact ⟨x, rfl⟩
    | none =>
        exfalso
        cases rs with
        | nil => exact hne rfl
        | cons a as =>
            rw [List.getLast?_eq_getLast (a :: as) (by simp)] at hgl
            cases hgl
  refine ⟨rl, hrl, ?_, ?_⟩
  · have h := retryGo_all_non200 q env rs tr none hresp hstat
    rw [hrl] at h
    simp only [Option.elim] at h
    unfold retryRequest
    rw [← hlen]
    exact h
  · by_cases hq : q = ""
    · refine ⟨". Path: " ++ rl.pathUrl ++ ". Response: ", ?_⟩
      simp [queryFailedMessage, hq, String.append_assoc]
    · refine ⟨". Query: " ++ q ++ ". Response: ", ?_⟩
      simp [queryFailedMessage, hq, String.append_assoc]

/-- Witness for C5: three straight 404 responses with body
`\x7b"message":"Not Found"\x7d` — exhaustion raises the query-failure error for
the last 404, with the status code and body text in the message. -/
theorem c5_exhausted_non200_query_failure_witness :
    ∃ rl, ([resp404, resp404, resp404] : List Response).getLast? = some rl ∧
      retryRequest clientTest plainQ env404 Trace.init =
        (.error (.queryFailed (some rl) (some plainQ)),
         ⟨Trace.init.k + clientTest.retryAttempts,
          Trace.init.reqs ++ List.replicate clientTest.retryAttempts plainQ,
          Trace.init.sleeps⟩) ∧
      ∃ mid, queryFailedMessage rl (some plainQ) =
        "Query failed with code " ++ toString rl.status ++ mid ++ rl.text :=
  c5_exhausted_non200_query_failure clientTest plainQ env404 Trace.init
    [resp404, resp404, resp404] (by decide) rfl
    (fun i h => by
      match i, h with
      | 0, _ => rfl
      | 1, _ => rfl
      | 2, _ => rfl)
    (by
      intro r hr
      simp only [List.mem_cons, List.not_mem_nil, or_false] at hr
      rcases hr with h | h | h <;> subst h <;> decide)

/-- C2: the throttle — a sleep of (resetAt − now) + 5 seconds — engages
if and only if `retry_attempts × cost > remaining`, where `cost` and
`remaining` come from the dryrun cost probe. -/
theorem c2_throttle_decision (c : Client) (q : String) (env : Nat → Attempt)
    (now : Int) (tr : Trace) (content : String) (r : Response) (tr₁ : Trace)
    (jb : JVal) (cost remaining : Int) (rs : String) (t : Int)
    (hc : reSearchQueryBrace q = some content)
    (hr : retryRequest c (renderQuery (probeFields content true)) env tr =
      (.ok r, tr₁))
    (hj : r.jsonBody = some jb)
    (hs : probeSnapshot jb = .ok (cost, remaining, .str rs))
    (hp : parseResetAt rs = some t) :
    execPreamble c q env now tr =
      (.ok (), if (c.retryAttempts : Int) * cost > remaining
        then ⟨tr₁.k, tr₁.reqs, tr₁.sleeps ++ [t - now + 5]⟩ else tr₁) ∧
    ((execPreamble c q env now tr).2.sleeps = tr.sleeps ++ [t - now + 5] ↔
      (c.retryAttempts : Int) * cost > remaining) := by
  have hne := reSearch_content_ne_empty q content hc
  have hHL : haveLimit c q env tr =
      (.ok (decide ((c.retryAttempts : Int) * cost > remaining), .str rs),
       tr₁) := by
    simp only [haveLimit, hc, queryCostFields_ok content true hne, hr, hj, hs]
  obtain ⟨m, _, _, htr₁⟩ := retryGo_ok_trace
    (renderQuery (probeFields content true)) env c.retryAttempts tr none false
    r tr₁ hr
  have hsl : tr₁.sleeps = tr.sleeps := by rw [htr₁]
  have hEQ : execPreamble c q env now tr =
      (.ok (), if (c.retryAttempts : Int) * cost > remaining
        then ⟨tr₁.k, tr₁.reqs, tr₁.sleeps ++ [t - now + 5]⟩ else tr₁) := by
    by_cases hcmp : (c.retryAttempts : Int) * cost > remaining
    · rw [if_pos hcmp]
      simp only [execPreamble, hHL, hp]
      simp [hcmp]
    · rw [if_neg hcmp]
      simp only [execPreamble, hHL]
      simp [hcmp]
  refine ⟨hEQ, ?_⟩
  rw [hEQ]
  by_cases hcmp : (c.retryAttempts : Int) * cost > remaining
  · rw [if_pos hcmp]
    simp only [hsl]
    simp [hcmp]
  · rw [if_neg hcmp]
    simp only [hsl]
    constructor
    · intro heq
      exfalso
      have hln := congrArg List.length heq
      simp at hln
    · intro hP
      exact absurd hP hcmp

/-- Witness for C2: with 3 retry attempts and a probe reporting cost 40,
the throttle engages for remaining 100 (3×40 = 120 > 100) and stays off
for remaining 130. -/
theorem c2_throttle_decision_witness :
    ((execPreamble clientTest plainQ envC2hot 0 Trace.init).2.sleeps =
        Trace.init.sleeps ++ [1893456600 - 0 + 5] ↔
      (clientTest.retryAttempts : Int) * 40 > 100) ∧
    ((execPreamble clientTest plainQ envC2cold 0 Trace.init).2.sleeps =
        Trace.init.sleeps ++ [1893456600 - 0 + 5] ↔
      (clientTest.retryAttempts : Int) * 40 > 130) :=
  ⟨(c2_throttle_decision clientTest plainQ envC2hot 0 Trace.init "viewer"
      (okResp (probeBody 40 100 resetT)) trProbe1 (probeBody 40 100 resetT)
      40 100 resetT 1893456600 rfl rfl rfl rfl (by decide)).2,
   (c2_throttle_decision clientTest plainQ envC2cold 0 Trace.init "viewer"
      (okResp (probeBody 40 130 resetT)) trProbe1 (probeBody 40 130 resetT)
      40 130 resetT 1893456600 rfl rfl rfl rfl (by decide)).2⟩

/-- C4: for a non-paginated query, a 200 response whose decoded payload
has no `errors` member makes `execute` return exactly the payload's
`data` object unmodified; an undecodable body, a non-200 status or an
`errors` member instead raises the query-failure error.  The last clause
ties `Client.execute` on a plain query to this response processing. -/
theorem c4_execute_result (c : Client) (q : String) (env : Nat → Attempt)
    (now : Int) (fuel : Nat) (tr : Trace) (r : Response) :
    (∀ j d, r.jsonBody = some j → r.status = 200 →
      jHasKey j "errors" = false → j.getKey "data" = some d →
      processResponse q r = .ok d) ∧
    (r.jsonBody = none →
      processResponse q r = .error (.queryFailed (some r) (some q))) ∧
    (∀ j, r.jsonBody = some j → jHasKey j "errors" = true →
      processResponse q r = .error (.queryFailed (some r) (some q))) ∧
    (r.status ≠ 200 →
      processResponse q r = .error (.queryFailed (some r) (some q))) ∧
    (∀ tr₁ res tr₂, execPreamble c q env now tr = (.ok (), tr₁) →
      retryRequest c q env tr₁ = (res, tr₂) →
      Client.execute c (.plain q) env now fuel tr =
        (.payload (res.bind fun rr => processResponse q rr), tr₂)) := by
  refine ⟨?_, ?_, ?_, ?_, ?_⟩
  · intro j d hj hst herr hd
    simp [processResponse, hj, hst, herr, hd]
  · intro hj
    simp [processResponse, hj]
  · intro j hj herr
    simp [processResponse, hj, herr]
  · intro hst
    cases hj : r.jsonBody with
    | none => simp [processResponse, hj]
    | some j => simp [processResponse, hj, hst]
  · intro tr₁ res tr₂ hpre hrr
    simp only [Client.execute, execOne, hpre, hrr]
    cases res with
    | error e => rfl
    | ok rr => rfl

/-- Witness for C4: the end-to-end scenario — a cheap probe, then a 200
response `\x7b"data": \x7b"user": \x7b octocat … \x7d\x7d\x7d`; `execute` returns exactly that
`data` object, after two POSTs and no sleep. -/
theorem c4_execute_result_witness :
    Client.execute clientTest (.plain plainQ) envOcto 0 0 Trace.init =
      (.payload (.ok octoData),
       ⟨2, [renderQuery (probeFields "viewer" true), plainQ], []⟩) := by
  have h5 := (c4_execute_result clientTest plainQ envOcto 0 0 Trace.init
      (okResp (.obj [("data", octoData)]))).2.2.2.2 trProbe1
      (.ok (okResp (.obj [("data", octoData)])))
      ⟨2, [renderQuery (probeFields "viewer" true), plainQ], []⟩ rfl rfl
  rw [h5]
  rfl

/-- C8: when a page response resolves through `_execute` but the
document's declared path does not resolve inside the payload — a field
name along the path is missing, or the path resolves and the `pageInfo`
subtree (or a member of it) is missing — the generator fails hard for
that page: the error propagates and the page is not yielded as a silent
empty page. -/
theorem c8_malformed_page_hard_failure (c : Client) (env : Nat → Attempt)
    (now : Int) (pq : PaginatedQuery) (tr : Trace) (p : JVal) (tr₁ : Trace)
    (e : ClientError)
    (hnext : pq.paginator.hasNext = true)
    (hx : execOne c (renderQuery pq.fields) env now tr = (.ok p, tr₁))
    (hbad : resolvePath p pq.path = .error e ∨
      ∃ node, resolvePath p pq.path = .ok node ∧
        readPageInfo node = .error e) :
    genStep c env now pq tr = (.error e, tr₁) ∧
    ∀ fuel, genRun c env now (fuel + 1) pq tr = ([], pq, tr₁, some e) := by
  have hstep : genStep c env now pq tr = (.error e, tr₁) := by
    rcases hbad with hpath | ⟨node, hres, hpi⟩
    · simp only [genStep, hx, hpath]
    · simp only [genStep, hx, hres, hpi]
  refine ⟨hstep, ?_⟩
  intro fuel
  rw [genRun_succ c env now fuel pq tr hnext, hstep]

/-- Witness for C8, covering both malformed shapes: a 200 page response
whose payload lacks the `user` member of the declared path `["user"]`
(the walk raises `KeyError "user"`), and one whose payload resolves the
path but whose subtree has no `pageInfo` member (the read raises
`KeyError "pageInfo"`) — in both cases the page sequence fails hard and
yields nothing. -/
theorem c8_malformed_page_hard_failure_witness :
    (genRun clientTest envBadPage 0 1 pqUser Trace.init =
      ([], pqUser,
       ⟨2, [renderQuery (probeFields " user \x7b login \x7d " true),
            renderQuery pqUser.fields], []⟩,
       some (.keyError "user"))) ∧
    (genRun clientTest envNoPageInfo 0 1 pqUser Trace.init =
      ([], pqUser,
       ⟨2, [renderQuery (probeFields " user \x7b login \x7d " true),
            renderQuery pqUser.fields], []⟩,
       some (.keyError "pageInfo"))) :=
  ⟨(c8_malformed_page_hard_failure clientTest envBadPage 0 pqUser Trace.init
      (.obj [("wrong", .num 1)])
      ⟨2, [renderQuery (probeFields " user \x7b login \x7d " true),
           renderQuery pqUser.fields], []⟩
      (.keyError "user") rfl rfl (Or.inl rfl)).2 0,
   (c8_malformed_page_hard_failure clientTest envNoPageInfo 0 pqUser
      Trace.init (.obj [("user", .obj [("login", .str "octocat")])])
      ⟨2, [renderQuery (probeFields " user \x7b login \x7d " true),
           renderQuery pqUser.fields], []⟩
      (.keyError "pageInfo") rfl rfl
      (Or.inr ⟨.obj [("login", .str "octocat")], rfl, rfl⟩)).2 0⟩

/-- C7: every page fetch performs its own complete `_execute` cycle — the
request log of a drained page sequence splits into one block per yielded
page, and each block is a fresh run of `a ≥ 1` POSTs of the rendered
`dryrun=True` cost probe followed by `b ≥ 1` POSTs of the page query: a
cost estimate is re-fetched before every single page, not once for the
whole sequence. -/
theorem c7_fresh_probe_per_page (c : Client) (env : Nat → Attempt)
    (now : Int) :
    ∀ (fuel : Nat) (pq : PaginatedQuery) (tr : Trace) (ys : List JVal)
      (pq' : PaginatedQuery) (tr' : Trace),
    genRun c env now fuel pq tr = (ys, pq', tr', none) →
    ∃ blocks : List (List String), blocks.length = ys.length ∧
      tr'.reqs = tr.reqs ++ blocks.flatten ∧
      ∀ bl ∈ blocks, ∃ content a b,
        reSearchQueryBrace (renderQuery pq.fields) = some content ∧
        1 ≤ a ∧ 1 ≤ b ∧
        bl = List.replicate a (renderQuery (probeFields content true)) ++
             List.replicate b (renderQuery pq.fields) := by
  intro fuel
  induction fuel with
  | zero =>
      intro pq tr ys pq' tr' h
      simp only [genRun, Prod.mk.injEq] at h
      obtain ⟨h1, h2, h3, -⟩ := h
      subst h1
      subst h3
      exact ⟨[], rfl, by simp, by simp⟩
  | succ n ih =>
      intro pq tr ys pq' tr' h
      cases hnext : pq.paginator.hasNext with
      | false =>
          rw [genRun_done c env now (n + 1) pq tr hnext] at h
          simp only [Prod.mk.injEq] at h
          obtain ⟨h1, h2, h3, -⟩ := h
          subst h1
          subst h3
          exact ⟨[], rfl, by simp, by simp⟩
      | true =>
          rw [genRun_succ c env now n pq tr hnext] at h
          cases hst : genStep c env now pq tr with
          | mk sres trA =>
              rw [hst] at h
              cases sres with
              | error e => simp [Prod.mk.injEq] at h
              | ok ppq =>
                  obtain ⟨p, pqB⟩ := ppq
                  replace h : consPage p (genRun c env now n pqB trA) =
                      (ys, pq', tr', none) := h
                  cases hg : genRun c env now n pqB trA with
                  | mk ys2 rest =>
                      obtain ⟨pq2, tr2, e2⟩ := rest
                      rw [hg] at h
                      simp only [consPage, Prod.mk.injEq] at h
                      obtain ⟨hys, hpq2, htr2, he2⟩ := h
                      obtain ⟨hfields, hpath, content, a, b, hre, ha, hb,
                        hreqs⟩ := genStep_ok_shape c env now pq tr p pqB trA hst
                      obtain ⟨blocks, hlen, hreqs2, hall⟩ :=
                        ih pqB trA ys2 pq2 tr2 (by rw [hg, he2])
                      refine ⟨(List.replicate a
                          (renderQuery (probeFields content true)) ++
                          List.replicate b (renderQuery pq.fields)) :: blocks,
                        ?_, ?_, ?_⟩
                      · simp [← hys, hlen]
                      · rw [← htr2, hreqs2, hreqs]
                        simp [List.append_assoc]
                      · intro bl hbl
                        rcases List.mem_cons.mp hbl with hbl1 | hbl2
                        · exact ⟨content, a, b, hre, ha, hb, hbl1⟩
                        · have := hall bl hbl2
                          rw [hfields] at this
                          exact this

/-- Witness for C7 on the concrete two-page run. -/
theorem c7_fresh_probe_per_page_witness :
    ∃ blocks : List (List String),
      blocks.length =
        ([pagePayload "C1" true, pagePayload "C2" false] : List JVal).length ∧
      trFin.reqs = Trace.init.reqs ++ blocks.flatten ∧
      ∀ bl ∈ blocks, ∃ content a b,
        reSearchQueryBrace (renderQuery pqPages.fields) = some content ∧
        1 ≤ a ∧ 1 ≤ b ∧
        bl = List.replicate a (renderQuery (probeFields content true)) ++
             List.replicate b (renderQuery pqPages.fields) :=
  c7_fresh_probe_per_page clientTest envPages 0 2 pqPages Trace.init
    [pagePayload "C1" true, pagePayload "C2" false] pqFin trFin rfl

/-- C1: in the two-page scenario (page 1 reports `hasNextPage=true,
endCursor="C1"`, page 2 reports `hasNextPage=false, endCursor="C2"`) the
generator yields exactly the two payloads; after the first yield the
cursor's `end_cursor` is `"C1"`; the whole run issues 4 POSTs (two probes,
two pages), and once `has_next` is false the generator issues no further
network request whatever fuel remains. -/
theorem c1_pagination_two_pages :
    (∀ now : Int,
      genStep clientTest envPages now pqPages Trace.init =
        (.ok (pagePayload "C1" true, pqMid), trMid)) ∧
    pqMid.paginator.endCursor = some "C1" ∧ trMid.k = 2 ∧
    (∀ (now : Int) (extra : Nat),
      genRun clientTest envPages now (extra + 2) pqPages Trace.init =
        ([pagePayload "C1" true, pagePayload "C2" false], pqFin, trFin,
         none)) ∧
    trFin.k = 4 ∧ pqFin.paginator.hasNext = false ∧
    pqFin.paginator.endCursor = some "C2" ∧
    (∀ (now : Int) (fuel : Nat),
      genRun clientTest envPages now fuel pqFin trFin =
        ([], pqFin, trFin, none)) := by
  refine ⟨fun now => rfl, rfl, rfl, ?_, rfl, rfl, rfl,
    fun now fuel => genRun_done clientTest envPages now fuel pqFin trFin rfl⟩
  intro now extra
  have h1 : genStep clientTest envPages now pqPages Trace.init =
      (.ok (pagePayload "C1" true, pqMid), trMid) := rfl
  have h2 : genStep clientTest envPages now pqMid trMid =
      (.ok (pagePayload "C2" false, pqFin), trFin) := rfl
  have hdone : genRun clientTest envPages now extra pqFin trFin =
      ([], pqFin, trFin, none) :=
    genRun_done clientTest envPages now extra pqFin trFin rfl
  rw [show extra + 2 = (extra + 1) + 1 from rfl]
  rw [genRun_succ clientTest envPages now (extra + 1) pqPages Trace.init rfl]
  simp only [h1]
  rw [genRun_succ clientTest envPages now extra pqMid trMid rfl]
  simp only [h2]
  rw [hdone]
  rfl
